import Mathlib

/-!
Verification of the SafeNavigation planning core against its design spec.

Shallow embedding notes:
* Python floats are modelled by exact rationals `ℚ`; the transcendental
  functions (`np.cos`, `np.sin`) that feed the adapter's action vectors are
  abstracted as rational-valued parameters (`cosd`, `sind`) of the adapter,
  since every property proved here holds for arbitrary values of them.
* The soft-max policy extraction uses `Real.exp`, so policies live in `ℝ`.
* Python `dict`s keyed by distinct values are modelled either as functions
  built from association lists (`List.lookup`) or, for iteration, as lists;
  Python `set` comprehensions that collapse equal *values* are modelled with
  `List.dedup` on the list of values.
* Code that can raise at run time (`pickle.load` on a corrupt file,
  `dict_keys.__getitem__`) is modelled with `Except`/`Option`, `error`/`none`
  standing for the raised exception.
-/

namespace SafeNav

/-! ## MDPAdapterSensor (src/MDPAdapterSensor.py)

The adapter is parametrised by the data its constructor derives from the
environment: grid extent (`width`, `height`, already the rounded-up
`ceil(env.{width,height}/cell_size)`), the wall bitmap (`walls y x`, indexed
like the numpy array `walls[y, x]`), the cell size, the action set
`{(direction, robot_speed)}`, the goal cell, and rational stand-ins
`cosd`/`sind` for `np.cos(np.pi*direction/180)` / `np.sin(...)`. -/

structure Adapter where
  width : ℕ
  height : ℕ
  cellSize : ℚ
  walls : ℤ → ℤ → Bool
  actions : List (ℚ × ℚ)
  goal : ℤ × ℤ
  cosd : ℚ → ℚ
  sind : ℚ → ℚ

/-- Embeds `_init_states`: every grid cell `(x, y)` with `x < width`, `y < height`.
The Python code builds a `set`; we enumerate it as a duplicate-free list. -/
def statesList (a : Adapter) : List (ℤ × ℤ) :=
  (List.range a.width).flatMap fun x =>
    (List.range a.height).map fun y => (Int.ofNat x, Int.ofNat y)

/-- Embeds `_compute_transition_prob`: overlap of the next state's unit cell with the
current cell shifted by the scaled action vector, zeroed on wall cells.
`cosd`/`sind` stand for the cosine/sine factors computed by numpy. -/
def computeTransitionProb (a : Adapter) (state : ℤ × ℤ) (action : ℚ × ℚ)
    (nextState : ℤ × ℤ) : ℚ :=
  let scaledSpeed : ℚ := 3 * action.2 / a.cellSize
  let actionX : ℚ := scaledSpeed * a.cosd action.1
  let actionY : ℚ := scaledSpeed * a.sind action.1
  let shiftedCurX : ℚ := (state.1 : ℚ) + actionX
  let shiftedCurY : ℚ := (state.2 : ℚ) + actionY
  let overlapX : ℚ := max 0 (1 - |(nextState.1 : ℚ) - shiftedCurX|)
  let overlapY : ℚ := max 0 (1 - |(nextState.2 : ℚ) - shiftedCurY|)
  if a.walls nextState.2 nextState.1 then 0 else overlapX * overlapY

/-- The per-axis overlap factor of `_compute_transition_prob`:
`max(0, 1 - |n - c|)` for a next-cell coordinate `n` against the shifted
current-cell coordinate `c`. -/
def tri (c : ℚ) (n : ℤ) : ℚ := max 0 (1 - |(n : ℚ) - c|)

/-- Embeds `_init_transition_table`: for every state and action, record each next
state whose computed probability is strictly positive.  The nested Python
dicts (distinct keys) are modelled as association lists over the
duplicate-free enumerations used to build them. -/
def initTransitionTable (a : Adapter) :
    List ((ℤ × ℤ) × List ((ℚ × ℚ) × List ((ℤ × ℤ) × ℚ))) :=
  (statesList a).map fun state =>
    (state, a.actions.map fun action =>
      (action, (statesList a).filterMap fun nextState =>
        if 0 < computeTransitionProb a state action nextState then
          some (nextState, computeTransitionProb a state action nextState)
        else none))

/-- Embeds the public `transition_prob`: read the precomputed table; a missing state or
action falls back to direct computation, a missing next state means 0. -/
def transitionProb (a : Adapter) (state : ℤ × ℤ) (action : ℚ × ℚ)
    (nextState : ℤ × ℤ) : ℚ :=
  match List.lookup state (initTransitionTable a) with
  | none => computeTransitionProb a state action nextState
  | some row =>
    match List.lookup action row with
    | none => computeTransitionProb a state action nextState
    | some entry =>
      match List.lookup nextState entry with
      | none => 0
      | some p => p

/-- Embeds `reward`: the probability of reaching the goal under this action when
positive, else the constant `-0.5`; `nextState` is ignored. -/
def reward (a : Adapter) (state : ℤ × ℤ) (action : ℚ × ℚ)
    (_nextState : Option (ℤ × ℤ)) : ℚ :=
  let reachGoalProb := transitionProb a state action a.goal
  if 0 < reachGoalProb then reachGoalProb else -(1/2)

/-! ## ValueIterationNavigationAlgorithm (src/NavigationAlgorithm/ValueIterationNavAlgo.py)

`_do_value_iter` is generic over the `mdp` object it receives; we embed that
interface as a record of the methods the loop calls.  `reward` is always
invoked with `next_state = None`, so it takes only state and action here. -/

structure FinMDP (S A : Type) where
  states : List S
  actions : List A
  goal : S
  reward : S → A → ℚ
  transP : S → A → S → ℚ
  successors : S → List S

variable {S A : Type} [DecidableEq S] [DecidableEq A]

/-- Sum of a Python `set` comprehension of rational values: equal values are
collapsed before summing. -/
def dedupSum (l : List ℚ) : ℚ := l.dedup.sum

/-- Python `max` over a collection of rationals (0 on the empty collection,
where Python would raise instead; the loop never evaluates that case for the
inputs considered here). -/
def maxList : List ℚ → ℚ
  | [] => 0
  | [x] => x
  | x :: y :: xs => max x (maxList (y :: xs))

/-- Discount `gamma = 0.98` in `_do_value_iter`. -/
def gammaVI : ℚ := 98 / 100

/-- Initial values: 0 everywhere except the goal state, which starts at 1. -/
def initValues (m : FinMDP S A) : S → ℚ :=
  fun s => if s = m.goal then 1 else 0

/-- One Q-value: `reward + gamma * sum({transition_prob * old_value for
next_state in successors})` — note the *set* comprehension, hence
`dedupSum`. -/
def qval (m : FinMDP S A) (v : S → ℚ) (s : S) (a : A) : ℚ :=
  m.reward s a +
    gammaVI * dedupSum ((m.successors s).map fun s' => m.transP s a s' * v s')

/-- One Bellman sweep: `new_values[state] = max(qvals[state].values())`. -/
def viSweep (m : FinMDP S A) (v : S → ℚ) : S → ℚ :=
  fun s => maxList (m.actions.map (qval m v s))

/-- Values after `k` sweeps of the loop body. -/
def viIter (m : FinMDP S A) : ℕ → (S → ℚ)
  | 0 => initValues m
  | k + 1 => viSweep m (viIter m k)

/-- Embeds `max({abs(old_values[s] - new_values[s]) for s in mdp.states()})`. -/
def maxDiff (m : FinMDP S A) (v w : S → ℚ) : ℚ :=
  maxList (m.states.map fun s => |v s - w s|)

/-- The loop's exit test after sweep `k + 1`: the change from `viIter k` to
`viIter (k+1)` has dropped below `0.01`. -/
def viConverged (m : FinMDP S A) (k : ℕ) : Prop :=
  maxDiff m (viIter m k) (viIter m (k + 1)) < 1 / 100

instance (m : FinMDP S A) (k : ℕ) : Decidable (viConverged m k) := by
  unfold viConverged; infer_instance

/-- The `while True` loop of `_do_value_iter` has no iteration cap, so it is
embedded with explicit fuel: the index of the first sweep after which the
exit test succeeds, or `none` if that does not happen within `fuel` sweeps
(the Python loop is still running at that point). -/
def viFirstConverged (m : FinMDP S A) (fuel : ℕ) : Option ℕ :=
  (List.range fuel).find? fun k => decide (viConverged m k)

/-- Policy extraction over one state's Q-values:
`exp_qvals = {action: np.exp(qval)*10}` then
`policy[action] = exp_qvals[action]/sum(exp_qvals.values())`.
The dict is keyed by the (distinct) actions, hence the `dedup` in the
denominator's sum. -/
noncomputable def extractPolicy (actions : List A) (q : A → ℚ) : A → ℝ :=
  fun a =>
    (Real.exp (q a) * 10) /
      ((actions.dedup.map fun a' => Real.exp (q a') * 10).sum)

/-- Embeds `_do_value_iter` end to end (with fuel): run the loop until the exit test
first succeeds, then extract the soft-max policy from the Q-values of the
final sweep (which were computed from the previous iterate's values). -/
noncomputable def doValueIter (m : FinMDP S A) (fuel : ℕ) : Option (S → A → ℝ) :=
  (viFirstConverged m fuel).map fun k =>
    fun s => extractPolicy m.actions (qval m (viIter m k) s)

/-- Embeds `_get_action`'s accumulation walk over the policy dict for one state,
given the drawn random number.  Returning `none` models falling through the
loop and reaching `self._policy[state].keys()[0]`, which raises `TypeError`
in Python 3 (`dict_keys` is not subscriptable). -/
def getActionWalk (policy : List (A × ℚ)) (rand : ℚ) (total : ℚ) : Option A :=
  match policy with
  | [] => none
  | (a, p) :: rest =>
    if rand < total + p then some a else getActionWalk rest rand (total + p)

/-- Embeds `_get_action`: walk from accumulated mass `0.0`. -/
def getAction (policy : List (A × ℚ)) (rand : ℚ) : Option A :=
  getActionWalk policy rand 0

/-! ## SamplingNavigationAlgorithm (src/NavigationAlgorithm/SamplingNavAlgo.py) -/

/-- Embeds `int(np.sign(x))` on an exact rational. -/
def qSign (x : ℚ) : ℤ :=
  if x < 0 then -1 else if 0 < x then 1 else 0

/-- Embeds `_compare_trajectories` of the sampling planner, parametrised by the two
heuristic evaluations it calls (`_safety_heuristic`, the sensor-dependent
parts being irrelevant to the comparison logic) and the safety threshold.
`safety_bias = 0.5` is the hard-coded local variable. -/
def compareTrajectories (safetyH distH : List P → ℚ) (threshold : ℚ)
    (t1 t2 : List P) : ℤ :=
  if t1.length = 0 ∧ t2.length = 0 then 0
  else if t1.length = 0 then 1
  else if t2.length = 0 then -1
  else
    let s1 := safetyH t1
    let s2 := safetyH t2
    if threshold < s1 ∧ threshold < s2 then qSign (s1 - s2)
    else if threshold < s1 then 1
    else if threshold < s2 then -1
    else
      let d1 := distH t1
      let d2 := distH t2
      let safetyBias : ℚ := 1 / 2
      let h1 := (1 - safetyBias) * d1 + safetyBias * s1
      let h2 := (1 - safetyBias) * d2 + safetyBias * s2
      qSign (h1 - h2)

/-- The comparison as the spec describes it (for the refutation of C5):
exceeding the threshold is strictly worse, and two trajectories on the same
side of the threshold are compared by the weighted blend. -/
def specCompareTrajectories (safetyH distH : List P → ℚ) (threshold : ℚ)
    (t1 t2 : List P) : ℤ :=
  if t1.length = 0 ∧ t2.length = 0 then 0
  else if t1.length = 0 then 1
  else if t2.length = 0 then -1
  else
    let s1 := safetyH t1
    let s2 := safetyH t2
    if threshold < s1 ∧ ¬threshold < s2 then 1
    else if ¬threshold < s1 ∧ threshold < s2 then -1
    else
      let d1 := distH t1
      let d2 := distH t2
      let safetyBias : ℚ := 1 / 2
      let h1 := (1 - safetyBias) * d1 + safetyBias * s1
      let h2 := (1 - safetyBias) * d2 + safetyBias * s2
      qSign (h1 - h2)

/-- Embeds `_create_distribution_at`: pointwise
`max(min(targetpoint_pdf, amplitude*raw_radar/radius), 0)` over the 360
headings. -/
def createDistributionAt (targetPdf rawRadar : Fin 360 → ℚ)
    (amplitude radarRadius : ℚ) : Fin 360 → ℚ :=
  fun i => max (min (targetPdf i) (amplitude * rawRadar i / radarRadius)) 0

/-- The normalization step inside `_gen_trajectory`: divide by the total mass
when it is nonzero, otherwise substitute the uniform distribution
`np.full(360, 1/360)`. -/
def normalizePdf (pdf : Fin 360 → ℚ) : Fin 360 → ℚ :=
  if (∑ i, pdf i) ≠ 0 then fun i => pdf i / (∑ j, pdf j) else fun _ => 1 / 360

/-! ## Transition-table cache handling (MDPAdapterSensor.__init__)

The constructor's file interaction is modelled by its observable content:
`cache = none` means `os.path.isfile` is false; `some (Except.ok t)` means
the pickle file loads to `t`; `some (Except.error ())` means `pickle.load`
raises on a corrupt file.  The result pairs the table used with the flag
"the table was persisted", and an `Except.error` result models the
constructor crashing with the propagated exception. -/

def loadOrComputeTable {T : Type} (cache : Option (Except Unit T))
    (computed : T) (uniqueId : String) : Except Unit (T × Bool) :=
  match cache with
  | some (Except.ok t) => Except.ok (t, false)
  | some (Except.error e) => Except.error e
  | none => Except.ok (computed, decide (uniqueId ≠ ""))

/-- The adapter's construction flow for its transition table. -/
def adapterInitTable (a : Adapter)
    (cache : Option (Except Unit (List ((ℤ × ℤ) × List ((ℚ × ℚ) × List ((ℤ × ℤ) × ℚ))))))
    (uniqueId : String) :
    Except Unit ((List ((ℤ × ℤ) × List ((ℚ × ℚ) × List ((ℤ × ℤ) × ℚ)))) × Bool) :=
  loadOrComputeTable cache (initTransitionTable a) uniqueId

/-! ## Concrete instances used by witnesses and counterexamples -/

/-- A 2×1 grid, one action pointing east whose scaled shift is exactly one
cell (`3·speed/cell_size = 1`, direction 0° so `cos = 1`, `sin = 0`),
goal in the east cell, no walls. -/
def wAdapter : Adapter where
  width := 2
  height := 1
  cellSize := 3
  walls := fun _ _ => false
  actions := [(0, 1)]
  goal := (1, 0)
  cosd := fun _ => 1
  sind := fun _ => 0

/-- A degenerate adapter over an empty grid: its transition table is empty,
so the public `transition_prob` always falls back to direct computation. -/
def eAdapter : Adapter where
  width := 0
  height := 0
  cellSize := 3
  walls := fun _ _ => false
  actions := [(0, 1)]
  goal := (1, 0)
  cosd := fun _ => 1
  sind := fun _ => 0

/-- A one-state MDP whose single Q-value is constant (reward 1, transition
weight 0), so the loop's exit test succeeds after the first sweep. -/
def goodMdp : FinMDP Unit Unit where
  states := [()]
  actions := [()]
  goal := ()
  reward := fun _ _ => 1
  transP := fun _ _ _ => 0
  successors := fun _ => [()]

/-- A one-state self-loop with transition weight 2 (the `mdp` interface is
untyped; nothing in `_do_value_iter` bounds the probabilities it is fed):
each sweep maps `v ↦ -1/2 + 0.98·(2·v)`, so the values diverge and the
change never drops below `0.01`. -/
def badMdp : FinMDP Unit Unit where
  states := [()]
  actions := [()]
  goal := ()
  reward := fun _ _ => -(1 / 2)
  transP := fun _ _ _ => 2
  successors := fun _ => [()]

/-- Safety heuristic used in the C5 scenario: trajectory `[0]` scores `1/5`,
everything else `3/10`. -/
def safetyHC5 : List ℕ → ℚ := fun t => if t = [0] then 1 / 5 else 3 / 10

/-- Distance heuristic used in the C5 scenario: trajectory `[0]` scores `100`,
everything else `0`. -/
def distHC5 : List ℕ → ℚ := fun t => if t = [0] then 100 else 0

/-- The policy extraction as claim C3 words it: soft-max of the Q-values with
inverse temperature 10. -/
noncomputable def specPolicyC3 (actions : List A) (q : A → ℚ) : A → ℝ :=
  fun a =>
    Real.exp (10 * q a) / ((actions.dedup.map fun a' => Real.exp (10 * q a')).sum)

/-- Action list of the C3 scenario. -/
def actionsC3 : List ℕ := [0, 1]

/-- Q-values of the C3 scenario: action `a` has Q-value `a` (so 0 and 1). -/
def qC3 : ℕ → ℚ := fun a => (a : ℚ)

/-! ## General lemmas -/

lemma computeTransitionProb_nonneg (a : Adapter) (s : ℤ × ℤ) (act : ℚ × ℚ)
    (s' : ℤ × ℤ) : 0 ≤ computeTransitionProb a s act s' := by
  unfold computeTransitionProb
  dsimp only
  split
  · exact le_rfl
  · exact mul_nonneg (le_max_left 0 _) (le_max_left 0 _)

/-! ## C7: reward equals goal-reaching probability when positive, else -0.5 -/

/-- C7: `reward(s, a, s')` equals `transition_prob(s, a, goal)` whenever that
probability is positive, otherwise the constant `-0.5`; in both cases the
result is independent of `s'`. -/
theorem reward_eq_goal_prob_or_constant (a : Adapter) (s : ℤ × ℤ) (act : ℚ × ℚ)
    (n₁ n₂ : Option (ℤ × ℤ)) :
    (0 < transitionProb a s act a.goal →
      reward a s act n₁ = transitionProb a s act a.goal) ∧
    (¬0 < transitionProb a s act a.goal → reward a s act n₁ = -(1 / 2)) ∧
    reward a s act n₁ = reward a s act n₂ := by
  unfold reward
  exact ⟨fun h => by rw [if_pos h], fun h => by rw [if_neg h], rfl⟩

/-- Witness for C7: on the concrete 2×1 adapter, the east action reaches the
goal cell with positive probability and the reward equals that probability. -/
theorem reward_eq_goal_prob_or_constant_witness :
    reward eAdapter (0, 0) (0, 1) none =
      transitionProb eAdapter (0, 0) (0, 1) eAdapter.goal :=
  (reward_eq_goal_prob_or_constant eAdapter (0, 0) (0, 1) none (some (1, 0))).1
    (by norm_num [transitionProb, initTransitionTable, statesList,
      computeTransitionProb, eAdapter])

/-! ## C8: all-zero sampling mass falls back to the uniform distribution -/

/-- C8: the per-step sampling distribution built by
`_create_distribution_at` has nonnegative entries, so its total mass is zero
exactly when every entry is zero, and in that case the normalization step of
`_gen_trajectory` substitutes the uniform distribution `1/360` instead of
dividing by the zero total. -/
theorem allzero_mass_falls_back_to_uniform (tp rr : Fin 360 → ℚ)
    (amp rad : ℚ) :
    ((∑ i, createDistributionAt tp rr amp rad i = 0) ↔
      ∀ i, createDistributionAt tp rr amp rad i = 0) ∧
    ((∑ i, createDistributionAt tp rr amp rad i = 0) →
      normalizePdf (createDistributionAt tp rr amp rad) = fun _ => 1 / 360) := by
  have hnn : ∀ i ∈ Finset.univ, 0 ≤ createDistributionAt tp rr amp rad i :=
    fun i _ => le_max_right _ _
  constructor
  · constructor
    · intro h i
      exact (Finset.sum_eq_zero_iff_of_nonneg hnn).mp h i (Finset.mem_univ i)
    · intro h
      exact Finset.sum_eq_zero fun i _ => h i
  · intro h
    unfold normalizePdf
    rw [if_neg (by simpa using h)]

/-- Witness for C8: the all-zero distribution normalizes to the uniform one. -/
theorem allzero_mass_falls_back_to_uniform_witness :
    normalizePdf (createDistributionAt (fun _ => 0) (fun _ => 0) 0 1) =
      fun _ => 1 / 360 :=
  (allzero_mass_falls_back_to_uniform (fun _ => 0) (fun _ => 0) 0 1).2
    (by simp [createDistributionAt])

/-! ## C9: cache handling in the adapter constructor -/

/-- Counterexample to C9: a corrupt cache file is not validated — the
`pickle.load` exception propagates out of the constructor (modelled as
`Except.error`) instead of being treated as a cache miss. -/
theorem corrupt_cache_error_propagates :
    adapterInitTable wAdapter (some (Except.error ())) "map" =
      Except.error () := rfl

/-- C9 (amended): a missing cache file is a cache miss — the table is
recomputed and persisted exactly when the identity key is nonempty; a
readable cache file is loaded verbatim; but a corrupt cache file is not
validated and its error propagates (the constructor crashes). -/
theorem cache_flow_behavior (a : Adapter) (uid : String)
    (t : List ((ℤ × ℤ) × List ((ℚ × ℚ) × List ((ℤ × ℤ) × ℚ)))) :
    adapterInitTable a none uid =
      Except.ok (initTransitionTable a, decide (uid ≠ "")) ∧
    adapterInitTable a (some (Except.ok t)) uid = Except.ok (t, false) ∧
    adapterInitTable a (some (Except.error ())) uid = Except.error () :=
  ⟨rfl, rfl, rfl⟩

/-! ## C6: run-time action sampling fallback -/

/-- C6: with action masses `[1/2, 2/5]` and draw `19/20`, the accumulation
walk of `_get_action` selects no action, and the code then evaluates
`self._policy[state].keys()[0]` — in Python 3 a `TypeError` (`dict_keys` is
not subscriptable), modelled here as `none`; it does not return the last
enumerated action as the claim states (nor even the first, which is what the
expression would denote if it were subscriptable). -/
theorem get_action_fallthrough_crashes :
    getAction [((0 : ℕ), (1 : ℚ) / 2), (1, 2 / 5)] (19 / 20) = none := by
  norm_num [getAction, getActionWalk]

/-! ## C5: trajectory comparison in the sampling planner -/

/-- Counterexample to C5: with safety threshold `1/10`, trajectory `[0]`
(safety `1/5`, distance `100`) and trajectory `[1]` (safety `3/10`, distance
`0`) are both unsafe; the code compares their raw safety scores and prefers
`[0]` (result `-1`), while the claim's blended comparison would prefer `[1]`
(result `1`). -/
theorem both_unsafe_compares_safety_not_blend :
    compareTrajectories safetyHC5 distHC5 (1 / 10) [0] [1] = -1 ∧
    specCompareTrajectories safetyHC5 distHC5 (1 / 10) [0] [1] = 1 := by
  refine ⟨?_, ?_⟩ <;>
    norm_num [compareTrajectories, specCompareTrajectories, safetyHC5,
      distHC5, qSign]

/-- C5 (amended): for non-empty trajectories, one exceeding the safety
threshold is strictly worse than one that does not; two trajectories that
both exceed it are compared by their safety scores alone (smaller better);
and only when neither exceeds it is the weighted blend
`(1 - 0.5)·distance + 0.5·safety` compared (smaller better). -/
theorem compare_trajectories_cases {P : Type} (safetyH distH : List P → ℚ)
    (th : ℚ) (t1 t2 : List P) (h1 : t1.length ≠ 0) (h2 : t2.length ≠ 0) :
    (th < safetyH t1 → th < safetyH t2 →
      compareTrajectories safetyH distH th t1 t2 =
        qSign (safetyH t1 - safetyH t2)) ∧
    (th < safetyH t1 → ¬th < safetyH t2 →
      compareTrajectories safetyH distH th t1 t2 = 1) ∧
    (¬th < safetyH t1 → th < safetyH t2 →
      compareTrajectories safetyH distH th t1 t2 = -1) ∧
    (¬th < safetyH t1 → ¬th < safetyH t2 →
      compareTrajectories safetyH distH th t1 t2 =
        qSign (((1 - 1 / 2) * distH t1 + (1 / 2) * safetyH t1) -
               ((1 - 1 / 2) * distH t2 + (1 / 2) * safetyH t2))) := by
  unfold compareTrajectories
  refine ⟨fun ha hb => ?_, fun ha hb => ?_, fun ha hb => ?_, fun ha hb => ?_⟩ <;>
    simp [h1, h2, ha, hb]

/-- Witness for C5 (amended): with threshold `1/2` both scenario trajectories
are safe and the comparison is the blended one. -/
theorem compare_trajectories_cases_witness :
    compareTrajectories safetyHC5 distHC5 (1 / 2) [0] [1] =
      qSign (((1 - 1 / 2) * distHC5 [0] + (1 / 2) * safetyHC5 [0]) -
             ((1 - 1 / 2) * distHC5 [1] + (1 / 2) * safetyHC5 [1])) :=
  (compare_trajectories_cases safetyHC5 distHC5 (1 / 2) [0] [1]
    (by simp) (by simp)).2.2.2 (by norm_num [safetyHC5]) (by norm_num [safetyHC5])

/-! ## C1 / C3: the extracted soft-max policy -/

lemma extractPolicy_denom_pos (actions : List A) (q : A → ℚ)
    (hne : actions ≠ []) :
    0 < ((actions.dedup.map fun a' => Real.exp (q a') * 10).sum) := by
  apply List.sum_pos
  · intro x hx
    obtain ⟨a', _, rfl⟩ := List.mem_map.mp hx
    positivity
  · simp [hne]

/-- Each policy row sums to 1: the shared computational core of C1. -/
lemma extractPolicy_sum_eq_one (actions : List A) (q : A → ℚ)
    (hne : actions ≠ []) :
    ((actions.dedup.map fun a => extractPolicy actions q a).sum) = 1 := by
  have hD := extractPolicy_denom_pos actions q hne
  unfold extractPolicy
  rw [show (fun a => Real.exp (q a) * 10 /
        ((actions.dedup.map fun a' => Real.exp (q a') * 10).sum)) =
      fun a => (fun a => Real.exp (q a) * 10) a *
        ((actions.dedup.map fun a' => Real.exp (q a') * 10).sum)⁻¹ from
    funext fun a => div_eq_mul_inv _ _]
  rw [List.sum_map_mul_right, mul_inv_cancel₀ (ne_of_gt hD)]

/-- C1: whenever `_do_value_iter` returns a policy, every state's action
probabilities sum to exactly 1 (hence certainly within `1e-6` of 1):
each row is a soft-max, a valid categorical distribution over the MDP's
(distinct) actions. -/
theorem policy_rows_sum_to_one (m : FinMDP S A) (fuel : ℕ) (P : S → A → ℝ)
    (hne : m.actions ≠ []) (h : doValueIter m fuel = some P) (s : S) :
    ((m.actions.dedup.map fun a => P s a).sum) = 1 := by
  obtain ⟨k, _, rfl⟩ := Option.map_eq_some'.mp h
  exact extractPolicy_sum_eq_one m.actions (qval m (viIter m k) s) hne

/-- Shared computation: the factor 10 in `np.exp(qval)*10` cancels between
numerator and denominator. -/
lemma extractPolicy_cancels_ten (actions : List A) (q : A → ℚ) (a : A) :
    extractPolicy actions q a =
      Real.exp (q a) / ((actions.dedup.map fun a' => Real.exp (q a')).sum) := by
  unfold extractPolicy
  rw [List.sum_map_mul_right, mul_div_mul_right _ _ (by norm_num : (10 : ℝ) ≠ 0)]

/-- C3 (amended): the extracted policy is the soft-max of the Q-values with
inverse temperature 1 — the code's factor 10 multiplies `exp(Q)` (it is not
`exp(10·Q)`) and cancels between numerator and denominator. -/
theorem extract_policy_is_temperature_one_softmax (actions : List A)
    (q : A → ℚ) (a : A) :
    extractPolicy actions q a =
      Real.exp (q a) / ((actions.dedup.map fun a' => Real.exp (q a')).sum) :=
  extractPolicy_cancels_ten actions q a

/-- Counterexample to C3: with actions `[0, 1]` and Q-values `Q(0) = 0`,
`Q(1) = 1`, the soft-max with inverse temperature 10 claimed by the spec
gives `1/(1 + e^10)` for action 0, while the code's policy gives
`1/(1 + e)`; these differ. -/
theorem softmax_temperature_is_not_ten :
    specPolicyC3 actionsC3 qC3 0 ≠ extractPolicy actionsC3 qC3 0 := by
  have hded : actionsC3.dedup = [0, 1] := by
    simp [actionsC3, List.dedup_cons_of_not_mem]
  have hspec : specPolicyC3 actionsC3 qC3 0 = 1 / (1 + Real.exp 10) := by
    unfold specPolicyC3
    rw [hded]
    norm_num [qC3]
  have hcode : extractPolicy actionsC3 qC3 0 = 1 / (1 + Real.exp 1) := by
    rw [extractPolicy_cancels_ten, hded]
    norm_num [qC3]
  rw [hspec, hcode]
  have h1 : (0 : ℝ) < 1 + Real.exp 1 := by positivity
  have h2 : 1 + Real.exp 1 < 1 + Real.exp 10 := by
    have := Real.exp_lt_exp.mpr (show (1 : ℝ) < 10 by norm_num)
    linarith
  exact ne_of_lt (one_div_lt_one_div_of_lt h1 h2)

/-- Witness for C1: on the one-state MDP the loop converges after one sweep
and the returned policy row sums to 1. -/
theorem policy_rows_sum_to_one_witness :
    ((goodMdp.actions.dedup.map fun a =>
        extractPolicy goodMdp.actions
          (qval goodMdp (viIter goodMdp 0) ()) a).sum) = 1 := by
  have hconv : viConverged goodMdp 0 := by
    norm_num [viConverged, maxDiff, viIter, viSweep, qval, initValues,
      dedupSum, maxList, gammaVI, goodMdp]
  have hfirst : viFirstConverged goodMdp 1 = some 0 := by
    unfold viFirstConverged
    rw [show List.range 1 = [0] from by simp [List.range_succ],
      List.find?_cons_of_pos _ (by simpa using hconv)]
  refine policy_rows_sum_to_one goodMdp 1
    (fun s => extractPolicy goodMdp.actions (qval goodMdp (viIter goodMdp 0) s))
    (by simp [goodMdp]) ?_ ()
  unfold doValueIter
  rw [hfirst]
  rfl

/-! ## C4: the value-iteration loop has no iteration cap -/

lemma viIter_badMdp_succ (k : ℕ) :
    viIter badMdp (k + 1) () = -(1 / 2) + gammaVI * (2 * viIter badMdp k ()) := by
  simp [viIter, viSweep, qval, maxList, dedupSum, badMdp]

lemma viIter_badMdp_ge_one : ∀ k, 1 ≤ viIter badMdp k ()
  | 0 => by simp [viIter, initValues, badMdp]
  | k + 1 => by
    have h := viIter_badMdp_ge_one k
    rw [viIter_badMdp_succ k]
    unfold gammaVI
    linarith

lemma badMdp_never_converges (k : ℕ) : ¬viConverged badMdp k := by
  have h1 := viIter_badMdp_ge_one k
  have hstep := viIter_badMdp_succ k
  have hgap : 23 / 50 ≤ viIter badMdp (k + 1) () - viIter badMdp k () := by
    rw [hstep]
    unfold gammaVI
    linarith
  unfold viConverged maxDiff
  simp only [badMdp, List.map_cons, List.map_nil, maxList, not_lt]
  calc (1 : ℚ) / 100 ≤ 23 / 50 := by norm_num
    _ ≤ viIter badMdp (k + 1) () - viIter badMdp k () := hgap
    _ ≤ |viIter badMdp (k + 1) () - viIter badMdp k ()| := le_abs_self _
    _ = |viIter badMdp k () - viIter badMdp (k + 1) ()| := abs_sub_comm _ _

/-- Counterexample to C4: `_do_value_iter` has no iteration cap.  On the
one-state MDP `badMdp` (a finite state space, `γ = 0.98 < 1`) the maximum
change never drops below `0.01`, and after 1000 iterations — where the claim
says a defensive cap would stop with approximate convergence — the loop is
still running (`none`): it would loop forever. -/
theorem vi_loop_still_running_after_1000 :
    viFirstConverged badMdp 1001 = none := by
  unfold viFirstConverged
  rw [List.find?_eq_none]
  intro k _
  simpa using badMdp_never_converges k

/-- C4 (amended): the loop exits exactly at the first sweep after which the
maximum absolute value change drops below 0.01 — there is no defensive
iteration cap, and for inputs that never converge (such as `badMdp`) the
loop never exits. -/
theorem vi_loop_exits_at_first_convergence (m : FinMDP S A) (fuel k : ℕ) :
    viFirstConverged m fuel = some k ↔
      k < fuel ∧ viConverged m k ∧ ∀ j < k, ¬viConverged m j := by
  induction fuel generalizing k with
  | zero => simp [viFirstConverged]
  | succ n ih =>
    unfold viFirstConverged at ih ⊢
    rw [List.range_succ, List.find?_append]
    cases hfind : (List.range n).find? (fun j => decide (viConverged m j)) with
    | some j =>
      obtain ⟨hjn, hconvj, hminj⟩ := (ih j).mp hfind
      rw [Option.or_some]
      constructor
      · intro h
        obtain rfl : j = k := by injection h
        exact ⟨Nat.lt_succ_of_lt hjn, hconvj, hminj⟩
      · rintro ⟨_, hconvk, hmink⟩
        have : j = k := by
          rcases Nat.lt_trichotomy j k with hlt | heq | hgt
          · exact absurd hconvj (hmink j hlt)
          · exact heq
          · exact absurd hconvk (hminj k hgt)
        rw [this]
    | none =>
      have hnone : ∀ j < n, ¬viConverged m j := by
        intro j hj
        have := List.find?_eq_none.mp hfind j (List.mem_range.mpr hj)
        simpa using this
      rw [Option.none_or]
      by_cases hn : viConverged m n
      · rw [List.find?_cons_of_pos _ (by simpa using hn)]
        constructor
        · intro h
          obtain rfl : n = k := by injection h
          exact ⟨Nat.lt_succ_self n, hn, hnone⟩
        · rintro ⟨hk, hconvk, _⟩
          rcases Nat.lt_succ_iff_lt_or_eq.mp hk with hlt | rfl
          · exact absurd hconvk (hnone k hlt)
          · rfl
      · rw [List.find?_cons_of_neg _ (by simpa using hn), List.find?_nil]
        constructor
        · intro h
          exact absurd h (by simp)
        · rintro ⟨hk, hconvk, _⟩
          rcases Nat.lt_succ_iff_lt_or_eq.mp hk with hlt | rfl
          · exact absurd hconvk (hnone k hlt)
          · exact absurd hconvk hn

/-- Witness for C4 (amended): on the one-state MDP `goodMdp` the loop exits
after the first sweep. -/
theorem vi_loop_exits_at_first_convergence_witness :
    viFirstConverged goodMdp 1 = some 0 :=
  (vi_loop_exits_at_first_convergence goodMdp 1 0).mpr
    ⟨Nat.zero_lt_one,
     by norm_num [viConverged, maxDiff, viIter, viSweep, qval, initValues,
       dedupSum, maxList, gammaVI, goodMdp],
     fun j hj => absurd hj (Nat.not_lt_zero j)⟩

/-! ## C2: transition probabilities sum to at most 1 -/

lemma tri_nonneg (c : ℚ) (n : ℤ) : 0 ≤ tri c n := le_max_left _ _

lemma tri_eq_zero_of_ne (c : ℚ) (n : ℤ) (h1 : n ≠ ⌊c⌋) (h2 : n ≠ ⌊c⌋ + 1) :
    tri c n = 0 := by
  have hfl : (⌊c⌋ : ℚ) ≤ c := Int.floor_le c
  have hfu : c < (⌊c⌋ : ℚ) + 1 := Int.lt_floor_add_one c
  have habs : 1 ≤ |(n : ℚ) - c| := by
    rcases lt_or_gt_of_ne h1 with hlt | hgt
    · have hn : n ≤ ⌊c⌋ - 1 := by omega
      have : (n : ℚ) ≤ (⌊c⌋ : ℚ) - 1 := by exact_mod_cast hn
      rw [le_abs]
      right
      linarith
    · have hn : ⌊c⌋ + 2 ≤ n := by omega
      have : (⌊c⌋ : ℚ) + 2 ≤ (n : ℚ) := by exact_mod_cast hn
      rw [le_abs]
      left
      linarith
  unfold tri
  rw [max_eq_left (by linarith)]

lemma tri_floor_pair_sum (c : ℚ) : tri c ⌊c⌋ + tri c (⌊c⌋ + 1) = 1 := by
  have hfl : (⌊c⌋ : ℚ) ≤ c := Int.floor_le c
  have hfu : c < (⌊c⌋ : ℚ) + 1 := Int.lt_floor_add_one c
  have e1 : tri c ⌊c⌋ = 1 - (c - (⌊c⌋ : ℚ)) := by
    unfold tri
    rw [abs_sub_comm, abs_of_nonneg (by linarith), max_eq_right (by linarith)]
  have e2 : tri c (⌊c⌋ + 1) = c - (⌊c⌋ : ℚ) := by
    unfold tri
    have hc : ((⌊c⌋ + 1 : ℤ) : ℚ) = (⌊c⌋ : ℚ) + 1 := by push_cast; ring
    rw [hc, abs_of_nonneg (by linarith), max_eq_right (by linarith)]
    ring
  rw [e1, e2]
  ring

/-- Over any duplicate-free collection of integer cells, the per-axis
triangle overlaps sum to at most 1. -/
lemma tri_sum_le_one (c : ℚ) (l : List ℤ) (hl : l.Nodup) :
    ((l.map (tri c)).sum) ≤ 1 := by
  rw [← List.sum_toFinset _ hl]
  have hfilter : l.toFinset.sum (tri c) =
      (l.toFinset.filter fun n => n = ⌊c⌋ ∨ n = ⌊c⌋ + 1).sum (tri c) :=
    (Finset.sum_filter_of_ne fun n _ hn => by
      by_contra hcon
      push_neg at hcon
      exact hn (tri_eq_zero_of_ne c n hcon.1 hcon.2)).symm
  rw [hfilter]
  have hsub : (l.toFinset.filter fun n => n = ⌊c⌋ ∨ n = ⌊c⌋ + 1) ⊆
      ({⌊c⌋, ⌊c⌋ + 1} : Finset ℤ) := by
    intro n hn
    rcases (Finset.mem_filter.mp hn).2 with h | h <;> simp [h]
  calc (l.toFinset.filter fun n => n = ⌊c⌋ ∨ n = ⌊c⌋ + 1).sum (tri c)
      ≤ ({⌊c⌋, ⌊c⌋ + 1} : Finset ℤ).sum (tri c) :=
        Finset.sum_le_sum_of_subset_of_nonneg hsub fun n _ _ => tri_nonneg c n
    _ = tri c ⌊c⌋ + tri c (⌊c⌋ + 1) := Finset.sum_pair (by omega)
    _ = 1 := tri_floor_pair_sum c

lemma sum_flatMap_rat {α : Type} (l : List α) (g : α → List ℚ) :
    ((l.flatMap g).sum) = ((l.map fun x => (g x).sum).sum) := by
  induction l with
  | nil => simp
  | cons x xs ih => simp [List.flatMap_cons, ih]

/-- The list of x-coordinates (or y-coordinates) of the grid, as integers,
has no duplicates. -/
lemma nodup_range_cast (n : ℕ) : ((List.range n).map Int.ofNat).Nodup :=
  (List.nodup_range n).map fun _ _ h => Int.ofNat.inj h

/-- C2: for every state and action of the adapter, the transition
probabilities of `_compute_transition_prob` summed over all grid states come
to at most 1 (exactly, hence within `1e-6`): mass lost to wall-blocked or
poorly-overlapping cells is simply missing, never renormalized. -/
theorem transition_mass_le_one (a : Adapter) (s : ℤ × ℤ) (act : ℚ × ℚ) :
    (((statesList a).map fun s' => computeTransitionProb a s act s').sum) ≤ 1 := by
  set cx : ℚ := (s.1 : ℚ) + 3 * act.2 / a.cellSize * a.cosd act.1 with hcx
  set cy : ℚ := (s.2 : ℚ) + 3 * act.2 / a.cellSize * a.sind act.1 with hcy
  have hb : ∀ s' : ℤ × ℤ,
      computeTransitionProb a s act s' ≤ tri cx s'.1 * tri cy s'.2 := by
    intro s'
    unfold computeTransitionProb tri
    dsimp only
    rw [hcx, hcy]
    split
    · exact mul_nonneg (le_max_left 0 _) (le_max_left 0 _)
    · exact le_refl _
  calc ((statesList a).map fun s' => computeTransitionProb a s act s').sum
      ≤ ((statesList a).map fun s' => tri cx s'.1 * tri cy s'.2).sum :=
        List.sum_le_sum fun s' _ => hb s'
    _ ≤ 1 := by
        unfold statesList
        rw [List.map_flatMap]
        rw [show (fun x : ℕ => ((List.range a.height).map fun y : ℕ =>
              (Int.ofNat x, Int.ofNat y)).map fun s' => tri cx s'.1 * tri cy s'.2) =
            fun x : ℕ => (List.range a.height).map fun y : ℕ =>
              tri cx (Int.ofNat x) * tri cy (Int.ofNat y) from
          funext fun x => by rw [List.map_map]; rfl]
        rw [sum_flatMap_rat]
        have hinner : ∀ x : ℕ,
            ((List.range a.height).map fun y : ℕ =>
              tri cx (Int.ofNat x) * tri cy (Int.ofNat y)).sum ≤
              tri cx (Int.ofNat x) := by
          intro x
          have hy : ((List.range a.height).map fun y : ℕ =>
              tri cy (Int.ofNat y)).sum ≤ 1 := by
            have := tri_sum_le_one cy ((List.range a.height).map Int.ofNat)
              (nodup_range_cast a.height)
            rwa [List.map_map] at this
          calc ((List.range a.height).map fun y : ℕ =>
                tri cx (Int.ofNat x) * tri cy (Int.ofNat y)).sum
              = tri cx (Int.ofNat x) * ((List.range a.height).map fun y : ℕ =>
                tri cy (Int.ofNat y)).sum := List.sum_map_mul_left _ _ _
            _ ≤ tri cx (Int.ofNat x) * 1 :=
                mul_le_mul_of_nonneg_left hy (tri_nonneg cx _)
            _ = tri cx (Int.ofNat x) := mul_one _
        calc ((List.range a.width).map fun x : ℕ =>
              ((List.range a.height).map fun y : ℕ =>
                tri cx (Int.ofNat x) * tri cy (Int.ofNat y)).sum).sum
            ≤ ((List.range a.width).map fun x : ℕ => tri cx (Int.ofNat x)).sum :=
              List.sum_le_sum fun x _ => hinner x
          _ ≤ 1 := by
              have := tri_sum_le_one cx ((List.range a.width).map Int.ofNat)
                (nodup_range_cast a.width)
              rwa [List.map_map] at this

/-! ## C10: the table-backed transition_prob refines the direct computation -/

lemma lookup_map_pair {α β : Type} [BEq α] [LawfulBEq α] (l : List α)
    (f : α → β) (x : α) (hx : x ∈ l) :
    List.lookup x (l.map fun y => (y, f y)) = some (f x) := by
  induction l with
  | nil => cases hx
  | cons y ys ih =>
    rw [List.map_cons, List.lookup_cons]
    by_cases h : x = y
    · subst h
      simp
    · rw [beq_eq_false_iff_ne.mpr h]
      exact ih (List.mem_cons.mp hx |>.resolve_left h)

lemma lookup_posEntries_of_pos {α : Type} [BEq α] [LawfulBEq α] (l : List α)
    (p : α → ℚ) (x : α) (hx : x ∈ l) (hp : 0 < p x) :
    List.lookup x
      (l.filterMap fun y => if 0 < p y then some (y, p y) else none) =
      some (p x) := by
  induction l with
  | nil => cases hx
  | cons y ys ih =>
    rw [List.filterMap_cons]
    by_cases hy : 0 < p y
    · rw [if_pos hy]
      dsimp only
      rw [List.lookup_cons]
      by_cases h : x = y
      · subst h
        simp
      · rw [beq_eq_false_iff_ne.mpr h]
        exact ih (List.mem_cons.mp hx |>.resolve_left h)
    · rw [if_neg hy]
      dsimp only
      have h : x ≠ y := fun hxy => hy (hxy ▸ hp)
      exact ih (List.mem_cons.mp hx |>.resolve_left h)

lemma lookup_posEntries_of_nonpos {α : Type} [BEq α] [LawfulBEq α]
    (l : List α) (p : α → ℚ) (x : α) (hp : ¬0 < p x) :
    List.lookup x
      (l.filterMap fun y => if 0 < p y then some (y, p y) else none) =
      none := by
  induction l with
  | nil => rfl
  | cons y ys ih =>
    rw [List.filterMap_cons]
    by_cases hy : 0 < p y
    · rw [if_pos hy]
      dsimp only
      rw [List.lookup_cons]
      have h : x ≠ y := fun hxy => hp (hxy ▸ hy)
      rw [beq_eq_false_iff_ne.mpr h]
      exact ih
    · rw [if_neg hy]
      exact ih

/-- C10: for every state in `states()`, action in `actions()` and next state
in `states()`, the public `transition_prob` — which reads the table built by
`_init_transition_table`, treats absent next states as probability 0 and
falls back to direct computation for missing states or actions — returns
exactly `_compute_transition_prob`'s value. -/
theorem transition_prob_table_refines_compute (a : Adapter) (s : ℤ × ℤ)
    (act : ℚ × ℚ) (s' : ℤ × ℤ) (hs : s ∈ statesList a) (ha : act ∈ a.actions)
    (hs' : s' ∈ statesList a) :
    transitionProb a s act s' = computeTransitionProb a s act s' := by
  unfold transitionProb initTransitionTable
  rw [lookup_map_pair _ _ _ hs]
  dsimp only
  rw [lookup_map_pair _ _ _ ha]
  dsimp only
  by_cases hpos : 0 < computeTransitionProb a s act s'
  · rw [lookup_posEntries_of_pos _ _ _ hs' hpos]
  · rw [lookup_posEntries_of_nonpos _ _ _ hpos]
    exact (le_antisymm (not_lt.mp hpos)
      (computeTransitionProb_nonneg a s act s')).symm

/-- Witness for C10 on the concrete 2×1 adapter. -/
theorem transition_prob_table_refines_compute_witness :
    transitionProb wAdapter (0, 0) (0, 1) (1, 0) =
      computeTransitionProb wAdapter (0, 0) (0, 1) (1, 0) :=
  transition_prob_table_refines_compute wAdapter (0, 0) (0, 1) (1, 0)
    (by simp [statesList, wAdapter, List.range_succ])
    (by simp [wAdapter])
    (by simp [statesList, wAdapter, List.range_succ])

end SafeNav
